import Mathlib

/-!
Verification development for the GPU-monitor telemetry engine of the
widgitron desktop-widget application (src/widgets/gpu_monitor.py).

The Python module is shallowly embedded: pure string processing becomes
Lean functions on `String`/`List Char`, Python floats become `ℚ`,
stateful SSH-session management becomes explicit state passing over a
`WorkerState`, effectful calls (SSH connect/exec, subprocess, file
existence) are supplied by an `Env` oracle, and Python exceptions become
`Except String` (a `KeyError` on a dict field `k` is the string `'k'`,
matching Python's `str(KeyError('k'))`).
-/

set_option maxRecDepth 100000

/-! ## Python-style string primitives -/

/-- The whitespace characters stripped by Python's `str.strip()`
(restricted to the ASCII range, which is all this module produces). -/
def isPySpace (c : Char) : Bool :=
  c = ' ' || c = '\t' || c = '\n' || c = '\r' || c = '\x0b' || c = '\x0c'

/-- `str.strip()` on a character list: drop whitespace from both ends. -/
def pyStripL (l : List Char) : List Char :=
  ((l.dropWhile isPySpace).reverse.dropWhile isPySpace).reverse

/-- Python `s.strip()`. -/
def pyStrip (s : String) : String := ⟨pyStripL s.data⟩

/-- Split on a single separator character, keeping empty pieces:
Python `s.split(sep)` for a one-character `sep`. -/
def splitOnCharL (sep : Char) : List Char → List (List Char)
  | [] => [[]]
  | c :: rest =>
    if c = sep then [] :: splitOnCharL sep rest
    else
      match splitOnCharL sep rest with
      | [] => [[c]]
      | h :: t => (c :: h) :: t

/-- Python `s.split(sep)` for a one-character separator, over `String`. -/
def pySplitChar (sep : Char) (s : String) : List String :=
  (splitOnCharL sep s.data).map (fun l => ⟨l⟩)

/-- Fuel-driven splitter for a multi-character separator
(Python `s.split(sep)`); the fuel `s.length + 1` always suffices for a
nonempty separator. -/
def splitOnStrFuel (sep : List Char) : Nat → List Char → List Char → List (List Char)
  | 0, s, acc => [acc.reverse ++ s]
  | _ + 1, [], acc => [acc.reverse]
  | fuel + 1, c :: rest, acc =>
    if sep ≠ [] ∧ sep.isPrefixOf (c :: rest) then
      acc.reverse :: splitOnStrFuel sep fuel (List.drop sep.length (c :: rest)) []
    else
      splitOnStrFuel sep fuel rest (c :: acc)

/-- Python `s.split(sep)` for a nonempty separator string. -/
def pySplitStr (sep : String) (s : String) : List String :=
  (splitOnStrFuel sep.data (s.data.length + 1) s.data []).map (fun l => ⟨l⟩)

/-- Python `s.split()` (no argument): split on whitespace runs, dropping
empty pieces. -/
def pySplitWsAux : List Char → List Char → List (List Char)
  | [], acc => if acc = [] then [] else [acc.reverse]
  | c :: rest, acc =>
    if isPySpace c then
      if acc = [] then pySplitWsAux rest [] else acc.reverse :: pySplitWsAux rest []
    else pySplitWsAux rest (c :: acc)

/-- Python `s.split()` over `String`. -/
def pySplitWs (s : String) : List String :=
  (pySplitWsAux s.data []).map (fun l => ⟨l⟩)

/-- Substring containment on character lists (Python `needle in haystack`). -/
def listContains (needle : List Char) : List Char → Bool
  | [] => needle.isEmpty
  | c :: rest => needle.isPrefixOf (c :: rest) || listContains needle rest

/-- Python `sub in s` for strings. -/
def pyInStr (sub s : String) : Bool := listContains sub.data s.data

/-- Python `sep.join(parts)`. -/
def pyJoin (sep : String) : List String → String
  | [] => ""
  | [x] => x
  | x :: y :: rest => x ++ sep ++ pyJoin sep (y :: rest)

/-- Python `s.lower()` (ASCII case mapping, all this module needs). -/
def pyLower (s : String) : String := ⟨s.data.map Char.toLower⟩

/-- Python `s.isdigit()` restricted to ASCII digits: nonempty and all
characters are digits. -/
def pyIsDigit (s : String) : Bool := s.data ≠ [] && s.data.all Char.isDigit

/-- Numeric value of a list of ASCII digit characters. -/
def natOfDigits (l : List Char) : ℕ :=
  l.foldl (fun n c => 10 * n + (c.toNat - 48)) 0

/-- Python `int(s)` on a string of ASCII digits. -/
def pyIntOfDigits (s : String) : ℕ := natOfDigits s.data

/-- Truthiness of an optional Python string (`None` and `""` are falsy). -/
def pyTruthy : Option String → Bool
  | none => false
  | some s => s ≠ ""

deriving instance DecidableEq for Except

/-- Python `dict[key]` on an optional field: raises `KeyError(key)` when
the field is absent; `str` of that exception is `'key'`. -/
def reqField (o : Option α) (key : String) : Except String α :=
  match o with
  | some v => .ok v
  | none => .error ("'" ++ key ++ "'")

/-! ## Python float model

Python `float(s)` is modelled on plain decimal literals (optional sign,
digits, optional fraction); exponent/inf/nan forms are not produced by
`nvidia-smi` output and are modelled as parse failures.  Values live in
`ℚ`; every arithmetic step is written with `mkRat` over integer
arithmetic so that concrete runs reduce inside the kernel. -/

/-- Python `float(s)`: raises `ValueError` on anything that is not a
decimal literal. -/
def pyFloat (s : String) : Except String ℚ :=
  let l := pyStripL s.data
  let (neg, l1) :=
    match l with
    | '-' :: r => (true, r)
    | '+' :: r => (false, r)
    | _ => (false, l)
  let ip := l1.takeWhile Char.isDigit
  let rest := l1.drop ip.length
  let fail : Except String ℚ :=
    .error ("could not convert string to float: '" ++ s ++ "'")
  match rest with
  | [] =>
    if ip = [] then fail
    else
      let n : ℤ := (natOfDigits ip : ℤ)
      .ok (mkRat (if neg then -n else n) 1)
  | '.' :: fr =>
    if fr.all Char.isDigit ∧ (ip ≠ [] ∨ fr ≠ []) then
      let n : ℤ := (natOfDigits ip * 10 ^ fr.length + natOfDigits fr : ℤ)
      .ok (mkRat (if neg then -n else n) (10 ^ fr.length))
    else fail
  | _ => fail

/-- Round half to even on `ℚ`, computed from numerator and denominator by
integer arithmetic (the rounding used by Python's `format(x, '.0f')`). -/
def roundHalfEven (q : ℚ) : ℤ :=
  let n := q.num
  let d : ℤ := (q.den : ℤ)
  let f := Int.fdiv n d
  let r2 := 2 * (n - f * d)
  if r2 < d then f
  else if d < r2 then f + 1
  else if f % 2 = 0 then f else f + 1

/-- Python `f"{x:.0f}"`: round half to even and print the integer
(`-0` is kept for negative values rounding to zero, as Python does). -/
def formatF0 (q : ℚ) : String :=
  let r := roundHalfEven q
  if r = 0 ∧ q.num < 0 then "-0" else toString r

/-- Rational subtraction written with `mkRat` over integer arithmetic
(definitionally evaluable; models float subtraction on timestamps). -/
def ratSub (a b : ℚ) : ℚ :=
  mkRat (a.num * (b.den : ℤ) - b.num * (a.den : ℤ)) (a.den * b.den)

/-- Python string comparison `a <= b`: lexicographic on code points. -/
def strLe (a b : String) : Bool := go a.data b.data
where
  go : List Char → List Char → Bool
    | [], _ => true
    | _ :: _, [] => false
    | c :: cs, d :: ds =>
      if c.toNat < d.toNat then true
      else if d.toNat < c.toNat then false
      else go cs ds

/-! ## Data model -/

/-- A GPU entry as built by the worker.  Direct mode fills `name`,
`mem_used`, `mem_total`, `util`; scheduler mode additionally fills
`index`, `display_type` and `partitions` (absent keys are `none`). -/
structure Gpu where
  name : String
  index : Option ℕ
  mem_used : ℚ
  mem_total : ℚ
  util : ℚ
  display_type : Option String
  partitions : Option (List String)
deriving DecidableEq

/-- Per-partition statistics `(partition, free, total)` in dict insertion
order. -/
abbrev PartStats := List (String × ℕ × ℕ)

/-- The per-host result dict returned by `get_gpu_info` /
`_get_slurm_info`: a device list, an info string, and (scheduler success
only) partition statistics. -/
structure GpuResult where
  gpu_list : List Gpu
  gpu_info : String
  partition_stats : Option PartStats
deriving DecidableEq

instance : Inhabited GpuResult := ⟨⟨[], "", none⟩⟩

/-- Proxy-jump specification (`server['proxy']`). -/
structure ProxySpec where
  host : String
  port : Option ℕ
  user : String
  key_file : Option String
deriving DecidableEq

/-- A host configuration dict; optional fields model possibly-missing
keys (`server['k']` on a missing key raises `KeyError`). -/
structure Server where
  host : Option String
  port : Option ℕ
  user : Option String
  password : Option String
  key_file : Option String
  serverType : Option String
  proxy : Option ProxySpec
deriving DecidableEq

/-- An SSH session handle (opaque to the worker's logic). -/
abbrev Session := ℕ

/-- Which credential a fresh `ssh.connect` call uses, with the connect
arguments (host, port, user). -/
inductive ConnMethod where
  | explicitKey (path : String) (host : String) (port : ℕ) (user : String)
  | defaultKey (path : String) (host : String) (port : ℕ) (user : String)
  | withPassword (pw : String) (host : String) (port : ℕ) (user : String)
deriving DecidableEq

/-- Oracle for every effect the worker performs: file probes, SSH
connect/probe/exec, local and proxied subprocess runs.  Failures are the
exception message the call raises. -/
structure Env where
  fileExists : String → Bool
  expanduser : String → String
  sshProbeOk : Bool
  sshConnect : ConnMethod → Except String Session
  sshExecDirect : Session → Except String String
  sshExecSlurm : Session → Except String String
  localExec : Except String String
  proxyExec : Except String String

/-- Mutable worker state: the SSH-connection cache and the per-server
error map.  A key that was never inserted and a key holding `None` are
both modelled as `none` (the code treats them identically: membership is
always tested together with `is not None`, and the error map is only
read immediately after a failure stored a message). -/
structure WorkerState where
  sshConnections : String → Option Session
  connectionErrors : String → Option String

/-- Pointwise update of a string-keyed map. -/
def setFn (f : String → Option α) (k : String) (v : Option α) : String → Option α :=
  fun x => if x = k then v else f x

/-- The all-empty initial state (`{}` dicts at thread construction). -/
def initState : WorkerState := ⟨fun _ => none, fun _ => none⟩

/-! ## get_server_id and simplify_gpu_name -/

/-- `get_server_id`: `f"{server['host']}:{port}"` with
`port = server.get('port', 22)`; raises `KeyError('host')` when the host
field is missing. -/
def get_server_id (server : Server) : Except String String :=
  match server.host with
  | none => .error "'host'"
  | some h => .ok (h ++ ":" ++ toString (server.port.getD 22))

/-- The `gpu_mappings` dict of `simplify_gpu_name`, in literal
(= insertion = iteration) order. -/
def gpu_mappings : List (String × String) :=
  [("A100", "A100"), ("A800", "A800"), ("A6000", "A6000"), ("A40", "A40"),
   ("H100", "H100"), ("H200", "H200"), ("L40", "L40"), ("L40S", "L40S"),
   ("L4", "L4"), ("T4", "T4"), ("V100", "V100"), ("P100", "P100"),
   ("P40", "P40"),
   ("RTX 6000", "RTX 6000"), ("RTX 5880", "RTX 5880"),
   ("RTX 5000", "RTX 5000"), ("RTX 4880", "RTX 4880"),
   ("RTX 4000", "RTX 4000"), ("RTX 5070 Ti", "RTX 5070Ti"),
   ("RTX 5070", "RTX 5070"), ("RTX 5000 Ada", "RTX 5000A"),
   ("RTX 4000 SFF Ada", "RTX 4000A"), ("RTX 4500", "RTX 4500"),
   ("RTX 4500 Ada", "RTX 4500A"), ("RTX 4090", "RTX 4090"),
   ("RTX 4080", "RTX 4080"), ("RTX 4070 Ti", "RTX 4070Ti"),
   ("RTX 4070", "RTX 4070"), ("RTX 4060 Ti", "RTX 4060Ti"),
   ("RTX 4060", "RTX 4060"), ("RTX 3090 Ti", "RTX 3090Ti"),
   ("RTX 3090", "RTX 3090"), ("RTX 3080 Ti", "RTX 3080Ti"),
   ("RTX 3080", "RTX 3080"), ("RTX 3070 Ti", "RTX 3070Ti"),
   ("RTX 3070", "RTX 3070"), ("RTX 3060 Ti", "RTX 3060Ti"),
   ("RTX 3060", "RTX 3060"), ("RTX 2080 Ti", "RTX 2080Ti"),
   ("RTX 2080", "RTX 2080"), ("RTX 2070", "RTX 2070"),
   ("MI300X", "MI300X"), ("MI300", "MI300"), ("MI250X", "MI250X"),
   ("MI250", "MI250"), ("MI210", "MI210"), ("MI100", "MI100"),
   ("MI50", "MI50"), ("MI25", "MI25"),
   ("RX 7900 XTX", "RX 7900XTX"), ("RX 7900 XT", "RX 7900XT"),
   ("RX 7900", "RX 7900"), ("RX 6900 XT", "RX 6900XT"),
   ("RX 6800 XT", "RX 6800XT"), ("RX 6700 XT", "RX 6700XT"),
   ("Arc A770", "Arc A770"), ("Arc A750", "Arc A750"),
   ("Arc A380", "Arc A380"),
   ("Data Center GPU Flex 170", "GPU Flex170"),
   ("Data Center GPU Flex 140", "GPU Flex140"),
   ("Tesla M40", "M40"), ("Tesla M10", "M10"), ("Tesla K40", "K40"),
   ("Tesla K20", "K20")]

/-- The vendor-prefix stripping step of the fallback: the first matching
prefix of `['NVIDIA ', 'Tesla ', 'AMD ', 'Intel ']` is removed and the
remainder stripped. -/
def stripVendor (name : String) : String :=
  match (["NVIDIA ", "Tesla ", "AMD ", "Intel "] :
      List String).find? (fun p => p.data.isPrefixOf name.data) with
  | some p => pyStrip ⟨name.data.drop p.data.length⟩
  | none => name

/-- `simplify_gpu_name`: first substring match in `gpu_mappings` order
wins; otherwise strip a vendor prefix and keep one or two
whitespace-delimited tokens (skipping a leading `geforce`/`radeon`). -/
def simplify_gpu_name (name0 : String) : String :=
  let name := pyStrip name0
  match gpu_mappings.find? (fun kv => pyInStr kv.1 name) with
  | some kv => kv.2
  | none =>
    let name := stripVendor name
    let parts := pySplitWs name
    if 2 ≤ parts.length ∧ pyLower (parts.getD 0 "") ∈ ["geforce", "radeon"] then
      if 1 < parts.length then pyJoin " " ((parts.drop 1).take 2)
      else parts.getD 0 ""
    else if 1 < parts.length then pyJoin " " (parts.take 2)
    else match parts with
      | [p] => p
      | _ => "Unknown"

/-! ## _get_ssh_connection -/

/-- The credential portion of a fresh connect (`try:` body of
`_get_ssh_connection`): explicit key file if it exists, else the default
`~/.ssh/id_rsa` if it exists, else password.  Dict accesses on `user` /
`password` may raise `KeyError`, which the caller's `except` absorbs. -/
def credAttempt (env : Env) (server : Server) (host : String) (port : ℕ) :
    Except String Session :=
  let kf := if pyTruthy server.key_file then server.key_file.map env.expanduser
            else server.key_file
  let useKey := match kf with
    | some k => k ≠ "" && env.fileExists k
    | none => false
  if useKey then
    match server.user with
    | none => .error "'user'"
    | some user => env.sshConnect (.explicitKey (kf.getD "") host port user)
  else
    let dk := env.expanduser "~/.ssh/id_rsa"
    if env.fileExists dk then
      match server.user with
      | none => .error "'user'"
      | some user => env.sshConnect (.defaultKey dk host port user)
    else
      match server.user with
      | none => .error "'user'"
      | some user =>
        match server.password with
        | none => .error "'password'"
        | some pw => env.sshConnect (.withPassword pw host port user)

/-- Outcome of the fresh-connect block: on success the session is cached
and the error cleared; on any exception the cache entry is cleared and
`str(e)` recorded. -/
def connectFresh (env : Env) (st : WorkerState) (server : Server) (sid host : String) :
    Option Session × WorkerState :=
  match credAttempt env server host (server.port.getD 22) with
  | .ok ssh =>
    (some ssh, ⟨setFn st.sshConnections sid (some ssh), setFn st.connectionErrors sid none⟩)
  | .error e =>
    (none, ⟨setFn st.sshConnections sid none, setFn st.connectionErrors sid (some e)⟩)

/-- `_get_ssh_connection`: probe a cached session with a no-op command,
reuse it on success; otherwise discard it and attempt a fresh connect.
Only the initial `get_server_id` call can raise (missing `host`). -/
def get_ssh_connection (env : Env) (st : WorkerState) (server : Server) :
    Except String (Option Session × WorkerState) :=
  match server.host with
  | none => .error "'host'"
  | some host =>
    let sid := host ++ ":" ++ toString (server.port.getD 22)
    match st.sshConnections sid with
    | some ssh =>
      if env.sshProbeOk then
        .ok (some ssh, ⟨st.sshConnections, setFn st.connectionErrors sid none⟩)
      else
        .ok (connectFresh env ⟨setFn st.sshConnections sid none, st.connectionErrors⟩ server sid host)
    | none => .ok (connectFresh env st server sid host)

/-! ## Direct-mode parser -/

/-- The per-device fragment appended to `gpu_info` for a well-formed
direct-mode line. -/
def gpuFragment (name : String) (mem_used mem_total util : ℚ) : String :=
  "GPU: " ++ name ++ "\nMemory: " ++ formatF0 mem_used ++ "/" ++ formatF0 mem_total ++
    " MB\nUtilization: " ++ formatF0 util ++ "%\n"

/-- The direct-mode line loop of `get_gpu_info`: a line with at least 4
comma-separated fields is parsed numerically (a `float` failure raises,
to be caught by the surrounding `try`), a shorter line appends an
`Invalid GPU data:` diagnostic. -/
def parseDirectLinesAux : List String → List Gpu → String → Except String (List Gpu × String)
  | [], gl, info => .ok (gl, info)
  | line :: rest, gl, info =>
    let parts := pySplitChar ',' line
    if 4 ≤ parts.length then
      let name := pyStrip (parts.getD 0 "")
      match pyFloat (pyStrip (parts.getD 1 "")) with
      | .error e => .error e
      | .ok mem_used =>
        match pyFloat (pyStrip (parts.getD 2 "")) with
        | .error e => .error e
        | .ok mem_total =>
          match pyFloat (pyStrip (parts.getD 3 "")) with
          | .error e => .error e
          | .ok util =>
            parseDirectLinesAux rest
              (gl ++ [⟨name, none, mem_used, mem_total, util, none, none⟩])
              (info ++ gpuFragment name mem_used mem_total util)
    else parseDirectLinesAux rest gl (info ++ "Invalid GPU data: " ++ line ++ "\n")

/-- Direct-mode handling of a (stripped) command output: nonempty output
is split into lines and parsed; empty output yields `No GPU data`. -/
def parseDirectOutput (output : String) : Except String GpuResult :=
  if output ≠ "" then
    match parseDirectLinesAux (pySplitChar '\n' output) [] "" with
    | .error e => .error e
    | .ok (gl, info) =>
      .ok { gpu_list := gl, gpu_info := pyStrip info, partition_stats := none }
  else .ok { gpu_list := [], gpu_info := "No GPU data", partition_stats := none }

/-! ## Scheduler-mode (Slurm) parser -/

/-- `re.search(key + "(CLASS+)", line)` for a literal `key` followed by a
captured maximal nonempty run of characters satisfying `good`: leftmost
position wins, scanning resumes at the next character when the run after
`key` is empty. -/
def findCaptureL (key : List Char) (good : Char → Bool) : List Char → Option (List Char)
  | [] => none
  | c :: rest =>
    if key.isPrefixOf (c :: rest) ∧ ((c :: rest).drop key.length).takeWhile good ≠ [] then
      some (((c :: rest).drop key.length).takeWhile good)
    else findCaptureL key good rest

/-- `findCaptureL` over `String`. -/
def reSearchCapture (key : String) (good : Char → Bool) (s : String) : Option String :=
  (findCaptureL key.data good s.data).map (fun l => ⟨l⟩)

/-- Character class `\S` (not whitespace). -/
def nonWs (c : Char) : Bool := !(isPySpace c)

/-- Character class `[^ ]` (anything but a space). -/
def nonBlank (c : Char) : Bool := c ≠ ' '

/-- A partition `State` token counting as drained/inactive/down. -/
def isDrainedState (st : String) : Bool :=
  pyInStr "DRAIN" st || pyInStr "INACTIVE" st || pyInStr "DOWN" st

/-- The `PartitionName=(\S+)` capture of a partition line. -/
def partitionName (line : String) : Option String :=
  reSearchCapture "PartitionName=" nonWs line

/-- The `State=(\S+)` capture of a partition line, defaulting to
`UNKNOWN`. -/
def partitionState (line : String) : String :=
  (reSearchCapture "State=" nonWs line).getD "UNKNOWN"

/-- One line of the partition phase: the partition name if the line has a
`PartitionName=` token and its state (default `UNKNOWN`) is not
drained/inactive/down; `none` otherwise. -/
def partLineEntry (line : String) : Option String :=
  match partitionName line with
  | none => none
  | some p_name =>
    if isDrainedState (partitionState line) then none else some p_name

/-- The valid-partition set collected by the partition phase. -/
def validPartitions (part_output : String) : List String :=
  if part_output = "" then []
  else (pySplitChar '\n' part_output).filterMap partLineEntry

/-- Strategy 1 of the node phase: GPU count and type from the `Gres=`
descriptor (count 0 when absent, gpu-less, `(null)`, or without a digit
segment). -/
def gresParse (line : String) : ℕ × String :=
  match reSearchCapture "Gres=" nonBlank line with
  | none => (0, "GPU")
  | some gres_str =>
    if pyInStr "gpu" gres_str ∧ gres_str ≠ "(null)" then
      let parts := pySplitChar ':' gres_str
      let cnt := match parts.reverse.find? pyIsDigit with
        | some p => pyIntOfDigits p
        | none => 0
      let ty :=
        if 2 < parts.length then parts.getD 1 "GPU"
        else if parts.length = 2 ∧ ¬ pyIsDigit (parts.getD 1 "") then parts.getD 1 "GPU"
        else "GPU"
      (cnt, ty)
    else (0, "GPU")

/-- Strategy 2: `gres/gpu=<digits>` inside the `CfgTRES=` token. -/
def cfgTresCount (line : String) : ℕ :=
  match reSearchCapture "CfgTRES=" nonBlank line with
  | none => 0
  | some cfg =>
    match reSearchCapture "gres/gpu=" Char.isDigit cfg with
    | some d => pyIntOfDigits d
    | none => 0

/-- Allocated GPUs: `gres/gpu=<digits>` inside the `AllocTRES=` token
(0 when absent). -/
def allocTresCount (line : String) : ℕ :=
  match reSearchCapture "AllocTRES=" nonBlank line with
  | none => 0
  | some a =>
    match reSearchCapture "gres/gpu=" Char.isDigit a with
    | some d => pyIntOfDigits d
    | none => 0

/-- The node-line membership list: the `Partitions=` token split on
commas and filtered to the valid set (empty when the token is absent). -/
def nodePartitions (valid : List String) (line : String) : List String :=
  match reSearchCapture "Partitions=" nonBlank line with
  | some raw => (pySplitChar ',' raw).filter (fun p => valid.contains p)
  | none => []

/-- One line of the node phase: devices contributed by a node record.
Partition memberships are filtered to the valid set; a node with no
remaining valid partition, or resolved GPU count 0, contributes nothing;
otherwise one device per unit, allocated units (index below the
`AllocTRES` count) at utilization 100, free units at 0. -/
def nodeDevices (valid : List String) (line : String) : List Gpu :=
  match reSearchCapture "NodeName=" nonWs line with
  | none => []
  | some node_name =>
    let partitions := nodePartitions valid line
    if partitions = [] then []
    else
      let gres := gresParse line
      let gpu_count := if gres.1 = 0 then cfgTresCount line else gres.1
      if gpu_count = 0 then []
      else
        let alloc_count := allocTresCount line
        (List.range gpu_count).map (fun i =>
          { name := node_name, index := some i, mem_used := 0, mem_total := 0,
            util := if i < alloc_count then 100 else 0,
            display_type := some gres.2, partitions := some partitions })

/-- One step of the partition-statistics accumulation for a device
belonging to partition `p`. -/
def bumpStat (stats : PartStats) (p : String) (free0 : Bool) : PartStats :=
  if stats.any (fun q => q.1 == p) then
    stats.map (fun q =>
      if q.1 == p then (q.1, (if free0 then q.2.1 + 1 else q.2.1), q.2.2 + 1) else q)
  else stats ++ [(p, (if free0 then 1 else 0), 1)]

/-- Partition statistics: every device is counted against every valid
partition it belongs to. -/
def partitionStats (gl : List Gpu) : PartStats :=
  gl.foldl (fun stats g =>
    (g.partitions.getD []).foldl (fun s p => bumpStat s p (g.util == 0)) stats) []

/-- The scheduler-mode summary string:
`Total: f/t Free | p1: f1/t1 | ...` with partition names sorted. -/
def slurmSummary (gl : List Gpu) (stats : PartStats) : String :=
  let free_gpus := (gl.filter (fun g => g.util == 0)).length
  let total_gpus := gl.length
  let keysSorted := List.insertionSort (fun a b => strLe a b = true) (stats.map (fun q => q.1))
  let parts := ("Total: " ++ toString free_gpus ++ "/" ++ toString total_gpus ++ " Free") ::
    keysSorted.map (fun p =>
      match stats.find? (fun q => q.1 == p) with
      | some q => p ++ ": " ++ toString q.2.1 ++ "/" ++ toString q.2.2
      | none => p)
  pyJoin " | " parts

/-- The separator echoed between the partition and node listings. -/
def slurmSep : String := "___PARTITION_NODE_SPLIT___"

/-- The node phase over the (stripped) node listing: each line
contributes its `nodeDevices`. -/
def parseNodes (valid : List String) (node_output : String) : List Gpu :=
  if node_output = "" then []
  else (pySplitChar '\n' node_output).flatMap (nodeDevices valid)

/-- Pure part of `_get_slurm_info` applied to the (stripped) combined
command output: split into the two blocks, run the partition phase and
node phase, compute statistics and summary, and sort devices by node
name. -/
def slurmParse (full_output : String) : GpuResult :=
  let gpu_list :=
    if full_output = "" then []
    else
      let parts := pySplitStr slurmSep full_output
      let part_output := pyStrip (parts.getD 0 "")
      let node_output := pyStrip (parts.getD 1 "")
      parseNodes (validPartitions part_output) node_output
  let stats := partitionStats gpu_list
  let gpu_info := slurmSummary gpu_list stats
  { gpu_list := List.insertionSort (fun a b => strLe a.name b.name = true) gpu_list,
    gpu_info := gpu_info, partition_stats := some stats }

/-- `_get_slurm_info`: always goes through `_get_ssh_connection` (no
loopback bypass); a missing connection or a failing remote command
degrades to an `Error:` result.  The `Bool` records that the SSH path
was taken.  Raises only when `host` is missing (the debug print indexes
`server['host']` outside any `try`). -/
def get_slurm_info (env : Env) (st : WorkerState) (server : Server) :
    Except String (GpuResult × WorkerState × Bool) :=
  match server.host with
  | none => .error "'host'"
  | some host =>
    match get_ssh_connection env st server with
    | .error e => .error e
    | .ok (none, st') =>
      let sid := host ++ ":" ++ toString (server.port.getD 22)
      let err := (st'.connectionErrors sid).getD "Connection failed"
      .ok ({ gpu_list := [], gpu_info := "Error: " ++ err, partition_stats := none }, st', true)
    | .ok (some ssh, st') =>
      match env.sshExecSlurm ssh with
      | .error e =>
        .ok ({ gpu_list := [], gpu_info := "Error: " ++ e, partition_stats := none }, st', true)
      | .ok raw => .ok (slurmParse (pyStrip raw), st', true)

/-! ## get_gpu_info and the poller round -/

/-- The `except`-branch result of `get_gpu_info`. -/
def errorResult (e : String) : GpuResult :=
  { gpu_list := [], gpu_info := "Error: " ++ e, partition_stats := none }

/-- `get_gpu_info`: scheduler hosts go to `_get_slurm_info`; otherwise
loopback hosts run the query locally, hosts with a proxy spec run it
through an external ssh subprocess, and all other hosts use the
persistent SSH session.  The whole direct branch sits inside one `try`,
so it never raises (a missing `host` is caught as `KeyError`); the
`Bool` records whether `_get_ssh_connection` was invoked. -/
def get_gpu_info (env : Env) (st : WorkerState) (server : Server) :
    Except String (GpuResult × WorkerState × Bool) :=
  if server.serverType = some "slurm" then get_slurm_info env st server
  else
    match server.host with
    | none => .ok (errorResult "'host'", st, false)
    | some host =>
      if host = "localhost" ∨ host = "127.0.0.1" then
        match env.localExec with
        | .error e => .ok (errorResult e, st, false)
        | .ok raw =>
          match parseDirectOutput (pyStrip raw) with
          | .ok r => .ok (r, st, false)
          | .error e => .ok (errorResult e, st, false)
      else if server.proxy.isSome then
        match env.proxyExec with
        | .error e => .ok (errorResult e, st, false)
        | .ok raw =>
          match parseDirectOutput (pyStrip raw) with
          | .ok r => .ok (r, st, false)
          | .error e => .ok (errorResult e, st, false)
      else
        match get_ssh_connection env st server with
        | .error e => .ok (errorResult e, st, true)
        | .ok (none, st') =>
          let sid := host ++ ":" ++ toString (server.port.getD 22)
          .ok (errorResult ((st'.connectionErrors sid).getD "Connection failed"), st', true)
        | .ok (some ssh, st') =>
          match env.sshExecDirect ssh with
          | .error e => .ok (errorResult e, st', true)
          | .ok raw =>
            match parseDirectOutput (pyStrip raw) with
            | .ok r => .ok (r, st', true)
            | .error e => .ok (errorResult e, st', true)

/-- Python dict assignment `d[k] = v`: update in place or append. -/
def dictInsert (l : List (String × GpuResult)) (k : String) (v : GpuResult) :
    List (String × GpuResult) :=
  if l.any (fun p => p.1 == k) then l.map (fun p => if p.1 == k then (p.1, v) else p)
  else l ++ [(k, v)]

/-- The per-server loop body of a `GPUWorker.run` round: fetch each
server's info and store it under `get_server_id(server)`.  The
`get_server_id` call sits outside any `try`, so a missing `host`
propagates out of the round. -/
def runRoundAux (env : Env) :
    List Server → List (String × GpuResult) → WorkerState →
    Except String (List (String × GpuResult) × WorkerState)
  | [], acc, st => .ok (acc, st)
  | server :: rest, acc, st =>
    match get_gpu_info env st server with
    | .error e => .error e
    | .ok (info, st', _) =>
      match get_server_id server with
      | .error e => .error e
      | .ok sid => runRoundAux env rest (dictInsert acc sid info) st'

/-- One round of `GPUWorker.run`. -/
def runRound (env : Env) (st : WorkerState) (servers : List Server) :
    Except String (List (String × GpuResult) × WorkerState) :=
  runRoundAux env servers [] st

/-- `_init_connections`, run once at thread start: non-loopback
hosts get empty cache entries; `get_server_id` and `server['host']` are
unprotected, so a missing `host` raises. -/
def init_connections : List Server → WorkerState → Except String WorkerState
  | [], st => .ok st
  | server :: rest, st =>
    match get_server_id server with
    | .error e => .error e
    | .ok sid =>
      match server.host with
      | none => .error "'host'"
      | some host =>
        if host ∉ (["localhost", "127.0.0.1"] : List String) then
          init_connections rest
            ⟨setFn st.sshConnections sid none, setFn st.connectionErrors sid none⟩
        else init_connections rest st

/-- Thread startup followed by the first polling round, as executed by
`GPUWorker.run`. -/
def runStartupRound (env : Env) (st : WorkerState) (servers : List Server) :
    Except String (List (String × GpuResult) × WorkerState) :=
  match init_connections servers st with
  | .error e => .error e
  | .ok st1 => runRound env st1 servers

/-! ## GPUMonitor: idle tracking -/

/-- Python dict assignment on the `last_active_times` map. -/
def timeSet (times : List (String × ℚ)) (k : String) (v : ℚ) : List (String × ℚ) :=
  if times.any (fun p => p.1 == k) then
    times.map (fun p => if p.1 == k then (p.1, v) else p)
  else times ++ [(k, v)]

/-- The reset condition of `_update_list_display`: the info string
contains `Utilization:` and contains `Utilization: i%` for some integer
`i` in `1..100`. -/
def utilizationResetCond (gpu_info : String) : Bool :=
  pyInStr "Utilization:" gpu_info &&
    (List.range' 1 100).any (fun i => pyInStr ("Utilization: " ++ toString i ++ "%") gpu_info)

/-- The `last_active_times` effect of `_update_list_display`: for every
delivered host with a label, reset its timestamp to `now` exactly when
`utilizationResetCond` holds for its info string. -/
def update_list_display_times (server_labels : List String)
    (gpu_data : List (String × GpuResult)) (now : ℚ)
    (times : List (String × ℚ)) : List (String × ℚ) :=
  gpu_data.foldl (fun times hd =>
    if hd.1 ∈ server_labels then
      if utilizationResetCond hd.2.gpu_info then timeSet times hd.1 now else times
    else times) times

/-- `GPUMonitor.check_idle`: the hosts whose `now - last_active` exceeds
the idle threshold; one aggregated notification naming all of them is
raised when the list is nonempty (`none` = no notification). -/
def check_idle (idleThreshold : ℚ) (now : ℚ) (times : List (String × ℚ)) :
    Option (List String) :=
  let idle_servers := (times.filter (fun p => idleThreshold < ratSub now p.2)).map (fun p => p.1)
  if idle_servers = [] then none else some idle_servers

/-! ## Claim-side definitions -/

instance : Inhabited Gpu := ⟨⟨"", none, 0, 0, 0, none, none⟩⟩

/-- The claims' discriminator for an error-bearing result: the info
string has prefix `Error:`. -/
def isErrorString (s : String) : Bool := s.data.take 6 == "Error:".data

/-- Independent per-line device extraction in direct mode: some device
exactly when the line has at least 4 comma-separated fields and its
three numeric fields parse. -/
def deviceOfLine (line : String) : Option Gpu :=
  let parts := pySplitChar ',' line
  if 4 ≤ parts.length then
    match pyFloat (pyStrip (parts.getD 1 "")), pyFloat (pyStrip (parts.getD 2 "")),
        pyFloat (pyStrip (parts.getD 3 "")) with
    | .ok mu, .ok mt, .ok u =>
      some ⟨pyStrip (parts.getD 0 ""), none, mu, mt, u, none, none⟩
    | _, _, _ => none
  else none

/-- Independent per-line info fragment in direct mode: the device
fragment when the line parses, the `Invalid GPU data:` diagnostic
otherwise. -/
def fragOfLine (line : String) : String :=
  match deviceOfLine line with
  | some g => gpuFragment g.name g.mem_used g.mem_total g.util
  | none => "Invalid GPU data: " ++ line ++ "\n"

/-- A line that does not abort the direct-mode parse: fewer than 4
fields (diagnostic case) or numerically parsable. -/
def lineNumericOk (line : String) : Bool :=
  (pySplitChar ',' line).length < 4 || (deviceOfLine line).isSome

/-- The credential the preference order selects for a fresh connect:
usable explicit key file, else existing default key, else password. -/
def credChoice (env : Env) (server : Server) (host : String) (port : ℕ) (user : String) :
    ConnMethod :=
  let kf := if pyTruthy server.key_file then server.key_file.map env.expanduser
            else server.key_file
  let useKey := match kf with
    | some k => k ≠ "" && env.fileExists k
    | none => false
  if useKey then .explicitKey (kf.getD "") host port user
  else
    let dk := env.expanduser "~/.ssh/id_rsa"
    if env.fileExists dk then .defaultKey dk host port user
    else .withPassword (server.password.getD "") host port user

/-- The result a direct-mode host obtains from the local execution path:
it depends only on the local `nvidia-smi` run. -/
def directLocalResult (env : Env) : GpuResult :=
  match env.localExec with
  | .error e => errorResult e
  | .ok raw =>
    match parseDirectOutput (pyStrip raw) with
    | .ok r => r
    | .error e => errorResult e

/-! ## Concrete oracles for witnesses and counterexamples -/

/-- A baseline oracle: no key files, failing SSH, empty local output. -/
def envBase : Env :=
  { fileExists := fun _ => false, expanduser := id, sshProbeOk := false,
    sshConnect := fun _ => .error "unreachable",
    sshExecDirect := fun _ => .error "exec failed",
    sshExecSlurm := fun _ => .error "exec failed",
    localExec := .ok "", proxyExec := .error "proxy failed" }

/-- Local direct-mode oracle with one well-formed and one short line. -/
def envDirectA : Env := { envBase with
  localExec := .ok "NVIDIA A100, 1024, 40960, 55\nbad line" }

/-- A loopback host polled in direct mode. -/
def srvLocal : Server := ⟨some "localhost", none, some "u", none, none, none, none⟩

/-- A loopback host configured in scheduler mode. -/
def srvSlurmLocal : Server := ⟨some "localhost", none, some "u", some "p", none, some "slurm", none⟩

/-- A server dict with no `host` key. -/
def noHostServer : Server := ⟨none, none, some "u", some "p", none, none, none⟩

/-- A direct-mode output with a well-formed line followed by a 4-field
line whose numbers are not numeric. -/
def envDirectBad : Env := { envBase with
  localExec := .ok "NVIDIA A100, 1024, 40960, 55\nbad, x, y, z" }

/-- Direct-mode output whose only device has fractional utilization. -/
def envFractional : Env := { envBase with localExec := .ok "MyGPU, 0, 0, 0.4" }

/-- The per-host result delivered for the fractional-utilization host. -/
def fracResult : GpuResult :=
  match get_gpu_info envFractional initState srvLocal with
  | .ok (r, _, _) => r
  | .error _ => default

/-- Direct-mode output whose only device has integer utilization 55. -/
def envInteger : Env := { envBase with localExec := .ok "MyGPU, 0, 0, 55" }

/-- The per-host result delivered for the integer-utilization host. -/
def intUtilResult : GpuResult :=
  match get_gpu_info envInteger initState srvLocal with
  | .ok (r, _, _) => r
  | .error _ => default

/-- The cache key of a host whose `host` field is `h`. -/
def sidOf (h : String) (server : Server) : String :=
  h ++ ":" ++ toString (server.port.getD 22)

/-- A plain remote host using password credentials. -/
def srvRemote : Server := ⟨some "gpu1", none, some "u", some "p", none, none, none⟩

/-- The worker state after a failed connect to `srvRemote`. -/
def c4FailState : WorkerState :=
  match get_ssh_connection envBase initState srvRemote with
  | .ok (_, s) => s
  | .error _ => initState

/-- An oracle whose SSH connects succeed (the host has recovered). -/
def envOkConn : Env := { envBase with sshConnect := fun _ => .ok 7 }

/-- A partition listing with one valid and one drained partition. -/
def c5Part : String := "PartitionName=good State=UP\nPartitionName=bad State=DRAINED"

/-- A node listing whose node is a member of both partitions. -/
def c5Node : String := "NodeName=n1 Partitions=good,bad Gres=gpu:2"

/-- A node line whose `Gres` is `(null)` so the `CfgTRES` fallback fires,
with one of two GPUs allocated. -/
def c6Line : String :=
  "NodeName=n1 Partitions=good Gres=(null) CfgTRES=cpu=8,gres/gpu=2 AllocTRES=gres/gpu=1"

/-- A scheduler output with a three-GPU node (equal names at distance). -/
def c10Raw : String :=
  "PartitionName=p1 State=UP\n___PARTITION_NODE_SPLIT___\nNodeName=n1 Partitions=p1 Gres=gpu:3"

/-- The result delivered for the concrete direct-mode host `srvLocal`
under `envDirectA`. -/
def c3Result : GpuResult :=
  match get_gpu_info envDirectA initState srvLocal with
  | .ok (p, _, _) => p
  | .error _ => default

/-! ## Helper lemmas -/

theorem strExt {a b : String} (h : a.data = b.data) : a = b := by
  cases a; cases b; cases h; rfl

theorem strLe_go_refl (l : List Char) : strLe.go l l = true := by
  induction l with
  | nil => rfl
  | cons c cs ih => simp [strLe.go, ih]

theorem strLe_refl (a : String) : strLe a a = true := strLe_go_refl a.data

theorem strLe_go_total (l m : List Char) : strLe.go l m = true ∨ strLe.go m l = true := by
  induction l generalizing m with
  | nil => exact .inl rfl
  | cons c cs ih =>
    cases m with
    | nil => exact .inr rfl
    | cons d ds =>
      rcases Nat.lt_trichotomy c.toNat d.toNat with h | h | h
      · exact .inl (by simp [strLe.go, h])
      · have h2 : ¬ c.toNat < d.toNat := by omega
        have h3 : ¬ d.toNat < c.toNat := by omega
        rcases ih ds with h4 | h4
        · exact .inl (by simp [strLe.go, h2, h3, h4])
        · exact .inr (by simp [strLe.go, h2, h3, h4])
      · exact .inr (by simp [strLe.go, h])

theorem strLe_total (a b : String) : strLe a b = true ∨ strLe b a = true :=
  strLe_go_total a.data b.data

theorem strLe_go_trans {l m k : List Char} (h1 : strLe.go l m = true)
    (h2 : strLe.go m k = true) : strLe.go l k = true := by
  induction l generalizing m k with
  | nil => rfl
  | cons c cs ih =>
    cases m with
    | nil => simp [strLe.go] at h1
    | cons d ds =>
      cases k with
      | nil => simp [strLe.go] at h2
      | cons e es =>
        simp only [strLe.go] at h1 h2 ⊢
        by_cases hcd : c.toNat < d.toNat
        · by_cases hde : d.toNat < e.toNat
          · rw [if_pos (by omega)]
          · by_cases hed : e.toNat < d.toNat
            · rw [if_neg hde, if_pos hed] at h2; exact absurd h2 (by simp)
            · rw [if_pos (by omega)]
        · by_cases hdc : d.toNat < c.toNat
          · rw [if_neg hcd, if_pos hdc] at h1; exact absurd h1 (by simp)
          · rw [if_neg hcd, if_neg hdc] at h1
            by_cases hde : d.toNat < e.toNat
            · rw [if_pos (by omega)]
            · by_cases hed : e.toNat < d.toNat
              · rw [if_neg hde, if_pos hed] at h2; exact absurd h2 (by simp)
              · rw [if_neg hde, if_neg hed] at h2
                rw [if_neg (by omega), if_neg (by omega)]
                exact ih h1 h2

theorem strLe_trans {a b c : String} (h1 : strLe a b = true) (h2 : strLe b c = true) :
    strLe a c = true :=
  strLe_go_trans h1 h2

theorem strLe_go_antisymm {l m : List Char} (h1 : strLe.go l m = true)
    (h2 : strLe.go m l = true) : l = m := by
  induction l generalizing m with
  | nil =>
    cases m with
    | nil => rfl
    | cons d ds => simp [strLe.go] at h2
  | cons c cs ih =>
    cases m with
    | nil => simp [strLe.go] at h1
    | cons d ds =>
      simp only [strLe.go] at h1 h2
      rcases Nat.lt_trichotomy c.toNat d.toNat with hcd | hcd | hcd
      · have : ¬ d.toNat < c.toNat := by omega
        simp [hcd, this] at h2
      · have h3 : ¬ c.toNat < d.toNat := by omega
        have h4 : ¬ d.toNat < c.toNat := by omega
        simp only [h3, if_false, h4] at h1 h2
        have hc : c = d := Char.ext (UInt32.ext hcd)
        rw [hc, ih h1 h2]
      · have : ¬ c.toNat < d.toNat := by omega
        simp [hcd, this] at h1

theorem strLe_antisymm {a b : String} (h1 : strLe a b = true) (h2 : strLe b a = true) :
    a = b :=
  strExt (strLe_go_antisymm h1 h2)

theorem isErrorString_of_head {s : String} {c : Char} {t : List Char}
    (h : s.data = c :: t) (hc : c ≠ 'E') : isErrorString s = false := by
  simp only [isErrorString, h, List.take]
  rw [beq_eq_false_iff_ne]
  intro hcontra
  exact hc (List.head_eq_of_cons_eq hcontra)

theorem pyStripL_head {c : Char} (cs : List Char) (hc : isPySpace c = false) :
    ∃ t, pyStripL (c :: cs) = c :: t := by
  have h1 : List.dropWhile isPySpace (c :: cs) = c :: cs := by
    simp [List.dropWhile_cons, hc]
  unfold pyStripL
  rw [h1, List.reverse_cons, List.dropWhile_append]
  by_cases h : (List.dropWhile isPySpace cs.reverse).isEmpty = true
  · rw [if_pos h]
    refine ⟨[], ?_⟩
    simp [List.dropWhile_cons, hc]
  · rw [if_neg h]
    exact ⟨(List.dropWhile isPySpace cs.reverse).reverse, by simp⟩

theorem pyStrip_head {s : String} {c : Char} {t : List Char}
    (h : s.data = c :: t) (hc : isPySpace c = false) :
    ∃ t2, (pyStrip s).data = c :: t2 := by
  have := pyStripL_head t hc
  simpa [pyStrip, h] using this

/-! ## C7: name simplification -/

/-- C7 counterexample: the claim says the longest/most-specific mapping
key wins, so a name containing `RTX 5000 Ada` should map to the
`RTX 5000 Ada` entry (`RTX 5000A`).  The code scans `gpu_mappings` in
insertion order and `RTX 5000` comes first, so the result is
`RTX 5000`. -/
theorem C7_counterexample :
    simplify_gpu_name "NVIDIA RTX 5000 Ada Generation" = "RTX 5000" ∧
    simplify_gpu_name "NVIDIA RTX 5000 Ada Generation" ≠ "RTX 5000A" := by
  constructor
  · decide
  · decide

/-- C7 amended: the first key of `gpu_mappings` (in its fixed insertion
order, which is not always the most specific match) that occurs as a
substring wins; the fallback examples behave as claimed:
`NVIDIA GeForce RTX 3080` simplifies to `RTX 3080` and the unrecognized
`Weird Vendor Card X1` to `Weird Vendor`, while `NVIDIA RTX 5000 Ada
Generation` hits the earlier `RTX 5000` entry. -/
theorem C7_simplify_first_match :
    simplify_gpu_name "NVIDIA GeForce RTX 3080" = "RTX 3080" ∧
    simplify_gpu_name "Weird Vendor Card X1" = "Weird Vendor" ∧
    simplify_gpu_name "NVIDIA RTX 5000 Ada Generation" = "RTX 5000" ∧
    (∀ name kv, gpu_mappings.find? (fun e => pyInStr e.1 (pyStrip name)) = some kv →
      simplify_gpu_name name = kv.2) := by
  refine ⟨by decide, by decide, by decide, ?_⟩
  intro name kv h
  simp only [simplify_gpu_name, h]

/-- Witness for the hypothesis-bearing conjunct of
`C7_simplify_first_match` at a concrete name. -/
theorem C7_simplify_first_match_witness :
    simplify_gpu_name "NVIDIA A100-SXM4-40GB" = "A100" :=
  C7_simplify_first_match.2.2.2 "NVIDIA A100-SXM4-40GB" ("A100", "A100") (by decide)

/-! ## C9: loopback bypass -/

/-- C9 counterexample: a loopback host in scheduler mode does not bypass
remote transport — `_get_slurm_info` unconditionally calls
`_get_ssh_connection` (the result's `true` flag), and here the SSH
connect fails, so the loopback host ends in an SSH error state instead
of a local query. -/
theorem C9_counterexample :
    ∃ r st', get_gpu_info envBase initState srvSlurmLocal = .ok (r, st', true) ∧
      isErrorString r.gpu_info = true :=
  ⟨_, _, rfl, rfl⟩

/-- C9 amended: in direct mode only, a loopback host bypasses SSH
entirely: no `_get_ssh_connection` call is made (flag `false`), the
session state is untouched, and the result is exactly the local
`nvidia-smi` run's. -/
theorem C9_loopback_direct_only (env : Env) (st : WorkerState) (server : Server)
    (h : server.host = some "localhost" ∨ server.host = some "127.0.0.1")
    (hm : server.serverType ≠ some "slurm") :
    get_gpu_info env st server = .ok (directLocalResult env, st, false) := by
  obtain ⟨shost, sport, suser, spw, skf, stype, sproxy⟩ := server
  rcases h with h | h <;> subst h <;>
    simp only [get_gpu_info, directLocalResult] <;>
    rw [if_neg hm] <;>
    rw [if_pos (by simp)] <;>
    rcases env.localExec with e | raw <;>
    try rfl
  all_goals rcases hp : parseDirectOutput (pyStrip raw) with r | e <;> simp [hp]

/-- Witness for `C9_loopback_direct_only` at a concrete loopback host. -/
theorem C9_loopback_direct_only_witness :
    get_gpu_info envDirectA initState srvLocal =
      .ok (directLocalResult envDirectA, initState, false) :=
  C9_loopback_direct_only envDirectA initState srvLocal (.inl rfl) (by decide)

/-! ## C1: missing config fields and round totality -/

theorem get_ssh_connection_isOk (env : Env) (st : WorkerState) (server : Server)
    (h : String) (hh : server.host = some h) :
    ∃ x, get_ssh_connection env st server = .ok x := by
  unfold get_ssh_connection
  rw [hh]
  dsimp only
  cases st.sshConnections (h ++ ":" ++ toString (server.port.getD 22)) with
  | some ssh =>
    dsimp only
    by_cases hp : env.sshProbeOk = true
    · rw [if_pos hp]; exact ⟨_, rfl⟩
    · rw [if_neg hp]; exact ⟨_, rfl⟩
  | none => exact ⟨_, rfl⟩

theorem get_gpu_info_isOk (env : Env) (st : WorkerState) (server : Server)
    (h : String) (hh : server.host = some h) :
    ∃ r st' b, get_gpu_info env st server = .ok (r, st', b) := by
  unfold get_gpu_info
  by_cases hs : server.serverType = some "slurm"
  · rw [if_pos hs]
    unfold get_slurm_info
    rw [hh]
    dsimp only
    obtain ⟨⟨conn, st2⟩, hconn⟩ := get_ssh_connection_isOk env st server h hh
    rw [hconn]
    cases conn with
    | none => exact ⟨_, _, _, rfl⟩
    | some ssh =>
      dsimp only
      cases env.sshExecSlurm ssh with
      | error e => exact ⟨_, _, _, rfl⟩
      | ok raw => exact ⟨_, _, _, rfl⟩
  · rw [if_neg hs, hh]
    dsimp only
    by_cases hl : h = "localhost" ∨ h = "127.0.0.1"
    · rw [if_pos hl]
      cases env.localExec with
      | error e => exact ⟨_, _, _, rfl⟩
      | ok raw =>
        dsimp only
        cases parseDirectOutput (pyStrip raw) with
        | ok r => exact ⟨_, _, _, rfl⟩
        | error e => exact ⟨_, _, _, rfl⟩
    · rw [if_neg hl]
      by_cases hpx : server.proxy.isSome = true
      · rw [if_pos hpx]
        cases env.proxyExec with
        | error e => exact ⟨_, _, _, rfl⟩
        | ok raw =>
          dsimp only
          cases parseDirectOutput (pyStrip raw) with
          | ok r => exact ⟨_, _, _, rfl⟩
          | error e => exact ⟨_, _, _, rfl⟩
      · rw [if_neg hpx]
        obtain ⟨⟨conn, st2⟩, hconn⟩ := get_ssh_connection_isOk env st server h hh
        rw [hconn]
        cases conn with
        | none => exact ⟨_, _, _, rfl⟩
        | some ssh =>
          dsimp only
          cases env.sshExecDirect ssh with
          | error e => exact ⟨_, _, _, rfl⟩
          | ok raw =>
            dsimp only
            cases parseDirectOutput (pyStrip raw) with
            | ok r => exact ⟨_, _, _, rfl⟩
            | error e => exact ⟨_, _, _, rfl⟩

theorem init_connections_isOk :
    ∀ (servers : List Server) (st : WorkerState),
    (∀ s ∈ servers, s.host.isSome = true) →
    ∃ st', init_connections servers st = .ok st' := by
  intro servers
  induction servers with
  | nil => exact fun st _ => ⟨st, rfl⟩
  | cons server rest ih =>
    intro st hall
    obtain ⟨h, hh⟩ := Option.isSome_iff_exists.mp (hall server (List.mem_cons_self server rest))
    have hrest : ∀ s ∈ rest, s.host.isSome = true :=
      fun s hs => hall s (List.mem_cons_of_mem server hs)
    unfold init_connections get_server_id
    rw [hh]
    dsimp only
    by_cases hl : h ∉ (["localhost", "127.0.0.1"] : List String)
    · rw [if_pos hl]; exact ih _ hrest
    · rw [if_neg hl]; exact ih _ hrest

theorem dictInsert_key_self (l : List (String × GpuResult)) (k : String) (v : GpuResult) :
    (dictInsert l k v).any (fun p => p.1 == k) = true := by
  unfold dictInsert
  by_cases hc : l.any (fun p => p.1 == k) = true
  · rw [if_pos hc, List.any_map]
    have : ((fun p : String × GpuResult => p.1 == k) ∘
        fun p => if p.1 == k then (p.1, v) else p) =
        fun p : String × GpuResult => p.1 == k := by
      funext p
      by_cases h2 : p.1 = k
      · simp [h2]
      · simp [h2]
    rw [this]; exact hc
  · rw [if_neg hc, List.any_append]
    simp

theorem dictInsert_key_mono (l : List (String × GpuResult)) (k : String) (v : GpuResult)
    (k' : String) (h : l.any (fun p => p.1 == k') = true) :
    (dictInsert l k v).any (fun p => p.1 == k') = true := by
  unfold dictInsert
  by_cases hc : l.any (fun p => p.1 == k) = true
  · rw [if_pos hc, List.any_map]
    have : ((fun p : String × GpuResult => p.1 == k') ∘
        fun p => if p.1 == k then (p.1, v) else p) =
        fun p : String × GpuResult => p.1 == k' := by
      funext p
      by_cases h2 : p.1 = k
      · simp [h2]
      · simp [h2]
    rw [this]; exact h
  · rw [if_neg hc, List.any_append, h]; rfl

theorem runRoundAux_spec (env : Env) :
    ∀ (servers : List Server) (acc : List (String × GpuResult)) (st : WorkerState),
    (∀ s ∈ servers, s.host.isSome = true) →
    ∃ data st', runRoundAux env servers acc st = .ok (data, st') ∧
      (∀ k, acc.any (fun p => p.1 == k) = true → data.any (fun p => p.1 == k) = true) ∧
      (∀ s ∈ servers, ∀ sid, get_server_id s = .ok sid →
        data.any (fun p => p.1 == sid) = true) := by
  intro servers
  induction servers with
  | nil =>
    intro acc st _
    exact ⟨acc, st, rfl, fun _ h => h, fun s hs => absurd hs (List.not_mem_nil s)⟩
  | cons server rest ih =>
    intro acc st hall
    obtain ⟨h, hh⟩ := Option.isSome_iff_exists.mp (hall server (List.mem_cons_self server rest))
    have hrest : ∀ s ∈ rest, s.host.isSome = true :=
      fun s hs => hall s (List.mem_cons_of_mem server hs)
    obtain ⟨info, st2, b, hinfo⟩ := get_gpu_info_isOk env st server h hh
    have hsid : get_server_id server = .ok (h ++ ":" ++ toString (server.port.getD 22)) := by
      unfold get_server_id; rw [hh]
    obtain ⟨data, st', hrec, hmono, hmem⟩ :=
      ih (dictInsert acc (h ++ ":" ++ toString (server.port.getD 22)) info) st2 hrest
    refine ⟨data, st', ?_, ?_, ?_⟩
    · unfold runRoundAux
      rw [hinfo, hsid]
      exact hrec
    · intro k hk
      exact hmono k (dictInsert_key_mono _ _ _ _ hk)
    · intro s hs sid hsid2
      rcases List.mem_cons.mp hs with rfl | hs2
      · rw [hsid] at hsid2
        injection hsid2 with heq
        rw [← heq]
        exact hmono _ (dictInsert_key_self _ _ _)
      · exact hmem s hs2 sid hsid2

/-- C1 counterexample: a host configuration missing the required `host`
field is not excluded from polling — `GPUWorker.run` raises
`KeyError('host')` (in `_init_connections` / `get_server_id`,
outside any `try`), which propagates out and kills the poller instead of
producing a per-host result. -/
theorem C1_counterexample :
    runStartupRound envBase initState [noHostServer] = .error "'host'" := rfl

/-- C1 amended: there is no startup exclusion of misconfigured hosts.  A
configuration missing `host` raises a `KeyError` that propagates out of
the round (see the counterexample); when every configured host does have
its `host` field, startup plus a full round never propagates an
exception and produces a result entry under every host's server id
(missing `user`/`password` only degrade that host's entry to an error
result). -/
theorem C1_round_total (env : Env) (st : WorkerState) (servers : List Server)
    (hall : ∀ s ∈ servers, s.host.isSome = true) :
    ∃ data st', runStartupRound env st servers = .ok (data, st') ∧
      ∀ s ∈ servers, ∀ sid, get_server_id s = .ok sid →
        data.any (fun p => p.1 == sid) = true := by
  obtain ⟨st1, hinit⟩ := init_connections_isOk servers st hall
  obtain ⟨data, st', hrun, _, hmem⟩ := runRoundAux_spec env servers [] st1 hall
  refine ⟨data, st', ?_, hmem⟩
  unfold runStartupRound
  rw [hinit]
  exact hrun

/-- Witness for `C1_round_total`: a loopback host plus a remote host
with no `user` field still yield a completed round. -/
theorem C1_round_total_witness :
    ∃ data st', runStartupRound envDirectA initState
      [srvLocal, ⟨some "gpu1", some 2222, none, none, none, none, none⟩] = .ok (data, st') := by
  obtain ⟨data, st', heq, _⟩ := C1_round_total envDirectA initState
    [srvLocal, ⟨some "gpu1", some 2222, none, none, none, none, none⟩]
    (by intro s hs; fin_cases hs <;> rfl)
  exact ⟨data, st', heq⟩

/-! ## C2: direct-mode per-line independence -/

theorem pyJoin_empty_cons (x : String) (l : List String) :
    pyJoin "" (x :: l) = x ++ pyJoin "" l := by
  cases l with
  | nil => exact (String.append_empty x).symm
  | cons y rest =>
    show x ++ "" ++ pyJoin "" (y :: rest) = x ++ pyJoin "" (y :: rest)
    rw [String.append_empty]

theorem parseDirectLinesAux_ok :
    ∀ (lines : List String), (∀ l ∈ lines, lineNumericOk l = true) →
    ∀ (gl : List Gpu) (info : String),
    parseDirectLinesAux lines gl info =
      .ok (gl ++ lines.filterMap deviceOfLine, info ++ pyJoin "" (lines.map fragOfLine)) := by
  intro lines
  induction lines with
  | nil =>
    intro _ gl info
    simp [parseDirectLinesAux, pyJoin, String.append_empty]
  | cons line rest ih =>
    intro hok gl info
    have hline := hok line (List.mem_cons_self line rest)
    have hrest : ∀ l ∈ rest, lineNumericOk l = true :=
      fun l hl => hok l (List.mem_cons_of_mem line hl)
    by_cases hlen : 4 ≤ (pySplitChar ',' line).length
    · have hnotlt : ¬ (pySplitChar ',' line).length < 4 := by omega
      have hsome : (deviceOfLine line).isSome = true := by
        unfold lineNumericOk at hline
        rcases Bool.or_eq_true_iff.mp hline with h | h
        · exact absurd (by exact decide_eq_true_eq.mp h) hnotlt
        · exact h
      obtain ⟨g, hg⟩ := Option.isSome_iff_exists.mp hsome
      unfold deviceOfLine at hg
      rw [if_pos hlen] at hg
      unfold parseDirectLinesAux
      rw [if_pos hlen]
      cases h1 : pyFloat (pyStrip ((pySplitChar ',' line).getD 1 "")) with
      | error e => rw [h1] at hg; simp at hg
      | ok mu =>
        cases h2 : pyFloat (pyStrip ((pySplitChar ',' line).getD 2 "")) with
        | error e => rw [h1, h2] at hg; simp at hg
        | ok mt =>
          cases h3 : pyFloat (pyStrip ((pySplitChar ',' line).getD 3 "")) with
          | error e => rw [h1, h2, h3] at hg; simp at hg
          | ok u =>
            rw [h1, h2, h3] at hg
            dsimp only at hg
            have hdev : deviceOfLine line =
                some ⟨pyStrip ((pySplitChar ',' line).getD 0 ""), none, mu, mt, u, none, none⟩ := by
              unfold deviceOfLine
              rw [if_pos hlen, h1, h2, h3]
            have hfrag : fragOfLine line =
                gpuFragment (pyStrip ((pySplitChar ',' line).getD 0 "")) mu mt u := by
              unfold fragOfLine
              rw [hdev]
            dsimp only
            rw [ih hrest]
            simp only [List.filterMap_cons, hdev, List.map_cons, pyJoin_empty_cons, hfrag,
              List.append_assoc, String.append_assoc]
            simp
    · have hlt : (pySplitChar ',' line).length < 4 := by omega
      have hdev : deviceOfLine line = none := by
        unfold deviceOfLine
        rw [if_neg hlen]
      have hfrag : fragOfLine line = "Invalid GPU data: " ++ line ++ "\n" := by
        unfold fragOfLine
        rw [hdev]
      unfold parseDirectLinesAux
      rw [if_neg hlen]
      rw [ih hrest]
      simp only [List.filterMap_cons, hdev, List.map_cons, pyJoin_empty_cons, hfrag,
        String.append_assoc]

/-- C2 amended: direct-mode lines parse independently as long as every
line with at least 4 fields is numerically well formed: the device list
is exactly the per-line devices, the info string is exactly the
concatenation of per-line fragments (a short line contributing only its
`Invalid GPU data:` diagnostic, not an error state) — but this is the
only malformed-line shape with partial success: a line with ≥ 4 fields
whose numbers fail `float()` raises instead and (see the counterexample)
turns the whole host into an error state. -/
theorem C2_line_independence (lines : List String)
    (hok : ∀ l ∈ lines, lineNumericOk l = true) :
    parseDirectLinesAux lines [] "" =
      .ok (lines.filterMap deviceOfLine, pyJoin "" (lines.map fragOfLine)) ∧
    ∀ l ∈ lines, (pySplitChar ',' l).length < 4 →
      deviceOfLine l = none ∧ fragOfLine l = "Invalid GPU data: " ++ l ++ "\n" := by
  constructor
  · have := parseDirectLinesAux_ok lines hok [] ""
    simpa using this
  · intro l _ hlt
    have hnot : ¬ 4 ≤ (pySplitChar ',' l).length := by omega
    have hdev : deviceOfLine l = none := by
      unfold deviceOfLine
      rw [if_neg hnot]
    exact ⟨hdev, by unfold fragOfLine; rw [hdev]⟩

/-- C2 counterexample: one malformed line (`bad, x, y, z`, 4 fields but
non-numeric) makes `float()` raise inside the loop; the surrounding
`try` converts the whole host to an error state — the list is emptied
and the info string replaced by an `Error:` string, discarding the
well-formed line — contradicting the claim that a malformed line only
contributes a diagnostic fragment. -/
theorem C2_counterexample :
    ∃ r st' b, get_gpu_info envDirectBad initState srvLocal = .ok (r, st', b) ∧
      r.gpu_list = [] ∧ isErrorString r.gpu_info = true :=
  ⟨_, _, _, rfl, rfl, rfl⟩

/-- Witness for `C2_line_independence` on a concrete two-line output
(one well-formed line, one short malformed line). -/
theorem C2_line_independence_witness :
    parseDirectLinesAux ["NVIDIA A100, 1024, 40960, 55", "bad line"] [] "" =
      .ok ((["NVIDIA A100, 1024, 40960, 55", "bad line"] : List String).filterMap deviceOfLine,
        pyJoin "" ((["NVIDIA A100, 1024, 40960, 55", "bad line"] : List String).map fragOfLine)) ∧
    ∀ l ∈ (["NVIDIA A100, 1024, 40960, 55", "bad line"] : List String),
      (pySplitChar ',' l).length < 4 →
      deviceOfLine l = none ∧ fragOfLine l = "Invalid GPU data: " ++ l ++ "\n" :=
  C2_line_independence ["NVIDIA A100, 1024, 40960, 55", "bad line"] (by decide)

/-! ## C8: idle tracking -/

/-- C8 counterexample: a host whose device list contains a device with
utilization 0.4 > 0 is NOT reset by the list-display update — the code
tests the formatted info string for `Utilization: i%` with integer `i`
in 1..100, and 0.4 formats as `0%`.  The claimed equivalence with
"some device has utilization strictly greater than 0" fails. -/
theorem C8_counterexample :
    (∃ g ∈ fracResult.gpu_list, 0 < g.util) ∧
    update_list_display_times ["localhost:22"] [("localhost:22", fracResult)] 5
      [("localhost:22", 0)] = [("localhost:22", 0)] := by
  constructor
  · decide
  · decide

/-- C8 amended: on every idle check, every host whose `now − last-active`
exceeds the threshold is named in the single aggregated alert raised by
that check (and the check is a pure function of the timestamp map, so it
repeats while the condition holds); the list-display update resets a
host's timestamp to `now` exactly when the host's info string satisfies
`utilizationResetCond` (contains `Utilization: i%` for an integer `i` in
1..100) — which a device with integer utilization 55 triggers, but a
device with fractional utilization 0.4 does not. -/
theorem C8_idle_tracking :
    (∀ (threshold now : ℚ) (times : List (String × ℚ)) (h : String) (t : ℚ),
      (h, t) ∈ times → threshold < ratSub now t →
      ∃ names, check_idle threshold now times = some names ∧ h ∈ names) ∧
    (∀ (labels : List String) (host : String) (r : GpuResult) (now : ℚ)
      (times : List (String × ℚ)),
      update_list_display_times labels [(host, r)] now times =
        if host ∈ labels then
          (if utilizationResetCond r.gpu_info then timeSet times host now else times)
        else times) ∧
    ((∃ g ∈ intUtilResult.gpu_list, 0 < g.util) ∧
      utilizationResetCond intUtilResult.gpu_info = true) := by
  refine ⟨?_, ?_, by decide, by decide⟩
  · intro threshold now times h t hmem hover
    have hf : (h, t) ∈ times.filter (fun p => threshold < ratSub now p.2) := by
      rw [List.mem_filter]
      exact ⟨hmem, by simpa using hover⟩
    have hmm : h ∈ (times.filter (fun p => threshold < ratSub now p.2)).map
        (fun p => p.1) :=
      List.mem_map.mpr ⟨(h, t), hf, rfl⟩
    have hne : (times.filter (fun p => threshold < ratSub now p.2)).map
        (fun p => p.1) ≠ [] := List.ne_nil_of_mem hmm
    unfold check_idle
    rw [if_neg hne]
    exact ⟨_, rfl, hmm⟩
  · intro labels host r now times
    rfl

/-- Witness for the idle-check conjunct of `C8_idle_tracking` at a
concrete timestamp map. -/
theorem C8_idle_tracking_witness :
    ∃ names, check_idle 300 1000 [("a", 500), ("b", 900)] = some names ∧ "a" ∈ names :=
  C8_idle_tracking.1 300 1000 [("a", 500), ("b", 900)] "a" 500 (by decide) (by decide)

/-! ## C4: session management -/

theorem get_ssh_connection_eq (env : Env) (st : WorkerState) (server : Server)
    (h : String) (hh : server.host = some h) :
    get_ssh_connection env st server = .ok (
      match st.sshConnections (sidOf h server) with
      | some ssh =>
        if env.sshProbeOk then
          (some ssh, ⟨st.sshConnections, setFn st.connectionErrors (sidOf h server) none⟩)
        else
          connectFresh env ⟨setFn st.sshConnections (sidOf h server) none, st.connectionErrors⟩
            server (sidOf h server) h
      | none => connectFresh env st server (sidOf h server) h) := by
  unfold get_ssh_connection sidOf
  rw [hh]
  dsimp only
  cases st.sshConnections (h ++ ":" ++ toString (server.port.getD 22)) with
  | some ssh =>
    dsimp only
    by_cases hp : env.sshProbeOk = true
    · rw [if_pos hp, if_pos hp]
    · rw [if_neg hp, if_neg hp]
  | none => rfl

theorem connectFresh_sshConnections_of_none (env : Env) (st : WorkerState) (server : Server)
    (sid h : String) (st1 : WorkerState)
    (hfail : connectFresh env st server sid h = (none, st1)) :
    st1.sshConnections sid = none ∧ ∃ msg, st1.connectionErrors sid = some msg := by
  unfold connectFresh at hfail
  cases hca : credAttempt env server h (server.port.getD 22) with
  | ok ssh => rw [hca] at hfail; simp at hfail
  | error e =>
    rw [hca] at hfail
    injection hfail with h1 h2
    rw [← h2]
    refine ⟨?_, e, ?_⟩ <;> simp [setFn]

theorem get_ssh_connection_none_state (env : Env) (st : WorkerState) (server : Server)
    (h : String) (hh : server.host = some h) (st1 : WorkerState)
    (hfail : get_ssh_connection env st server = .ok (none, st1)) :
    st1.sshConnections (sidOf h server) = none ∧
      ∃ msg, st1.connectionErrors (sidOf h server) = some msg := by
  rw [get_ssh_connection_eq env st server h hh] at hfail
  injection hfail with h1
  cases hcache : st.sshConnections (sidOf h server) with
  | some ssh =>
    rw [hcache] at h1
    dsimp only at h1
    by_cases hp : env.sshProbeOk = true
    · rw [if_pos hp] at h1; simp at h1
    · rw [if_neg hp] at h1
      exact connectFresh_sshConnections_of_none env _ server _ h st1 h1
  | none =>
    rw [hcache] at h1
    dsimp only at h1
    exact connectFresh_sshConnections_of_none env st server _ h st1 h1

/-- C4: session management.  For a host with its `host` field present:
(1) `_get_ssh_connection` never raises;
(2) a cached session is reused when the no-op probe succeeds, clearing
    the host's error;
(3) on probe failure the cached session is discarded and the call
    behaves exactly like a fresh call with the cache entry cleared;
(4) with no cached session, a successful connect attempt caches and
    returns the new session, and a failed attempt returns no session
    with the exception text recorded as the host's error;
(5) the fresh connect uses the credential the preference order selects
    (explicit key file if usable, else default key, else password);
(6) a session handle is returned or an error is recorded, never neither;
(7) after a failed call, a later call once the host has recovered (its
    connect attempt succeeds) returns a usable session — no restart
    needed. -/
theorem C4_session_management (env : Env) (st : WorkerState) (server : Server)
    (h : String) (hh : server.host = some h) :
    (∃ x, get_ssh_connection env st server = .ok x) ∧
    (∀ s, st.sshConnections (sidOf h server) = some s → env.sshProbeOk = true →
      get_ssh_connection env st server =
        .ok (some s, ⟨st.sshConnections, setFn st.connectionErrors (sidOf h server) none⟩)) ∧
    (∀ s, st.sshConnections (sidOf h server) = some s → env.sshProbeOk = false →
      get_ssh_connection env st server =
        get_ssh_connection env ⟨setFn st.sshConnections (sidOf h server) none,
          st.connectionErrors⟩ server) ∧
    (∀ ssh2, st.sshConnections (sidOf h server) = none →
      credAttempt env server h (server.port.getD 22) = .ok ssh2 →
      get_ssh_connection env st server =
        .ok (some ssh2, ⟨setFn st.sshConnections (sidOf h server) (some ssh2),
          setFn st.connectionErrors (sidOf h server) none⟩)) ∧
    (∀ e, st.sshConnections (sidOf h server) = none →
      credAttempt env server h (server.port.getD 22) = .error e →
      get_ssh_connection env st server =
        .ok (none, ⟨setFn st.sshConnections (sidOf h server) none,
          setFn st.connectionErrors (sidOf h server) (some e)⟩)) ∧
    (∀ user pw, server.user = some user → server.password = some pw →
      credAttempt env server h (server.port.getD 22) =
        env.sshConnect (credChoice env server h (server.port.getD 22) user)) ∧
    (∀ st1, get_ssh_connection env st server = .ok (none, st1) →
      ∃ msg, st1.connectionErrors (sidOf h server) = some msg) ∧
    (∀ (env2 : Env) (st1 : WorkerState) (s2 : Session),
      get_ssh_connection env st server = .ok (none, st1) →
      credAttempt env2 server h (server.port.getD 22) = .ok s2 →
      get_ssh_connection env2 st1 server =
        .ok (some s2, ⟨setFn st1.sshConnections (sidOf h server) (some s2),
          setFn st1.connectionErrors (sidOf h server) none⟩)) := by
  refine ⟨⟨_, get_ssh_connection_eq env st server h hh⟩, ?_, ?_, ?_, ?_, ?_, ?_, ?_⟩
  · intro s hc hp
    rw [get_ssh_connection_eq env st server h hh, hc]
    dsimp only
    rw [if_pos hp]
  · intro s hc hp
    rw [get_ssh_connection_eq env st server h hh, hc,
      get_ssh_connection_eq env _ server h hh]
    dsimp only
    rw [if_neg (by simp [hp])]
    have : setFn st.sshConnections (sidOf h server) none (sidOf h server) = none := by
      simp [setFn]
    rw [this]
  · intro ssh2 hc hca
    rw [get_ssh_connection_eq env st server h hh, hc]
    dsimp only
    unfold connectFresh
    rw [hca]
  · intro e hc hca
    rw [get_ssh_connection_eq env st server h hh, hc]
    dsimp only
    unfold connectFresh
    rw [hca]
  · intro user pw huser hpw
    unfold credAttempt credChoice
    rw [huser, hpw]
    simp only [Option.getD_some, apply_ite env.sshConnect]
  · intro st1 hfail
    exact (get_ssh_connection_none_state env st server h hh st1 hfail).2
  · intro env2 st1 s2 hfail hca
    have hnone := (get_ssh_connection_none_state env st server h hh st1 hfail).1
    rw [get_ssh_connection_eq env2 st1 server h hh, hnone]
    dsimp only
    unfold connectFresh
    rw [hca]

/-- Witness for `C4_session_management`: force a failed connect, then a
call against a recovered oracle returns a usable session from the same
worker state. -/
theorem C4_session_management_witness :
    get_ssh_connection envOkConn c4FailState srvRemote =
      .ok (some 7, ⟨setFn c4FailState.sshConnections (sidOf "gpu1" srvRemote) (some 7),
        setFn c4FailState.connectionErrors (sidOf "gpu1" srvRemote) none⟩) :=
  (C4_session_management envBase initState srvRemote "gpu1" rfl).2.2.2.2.2.2.2
    envOkConn c4FailState 7 rfl rfl

/-! ## C5: drained-partition filtering -/

/-- C5: for every pair of text blocks: (a) a partition name is in the
valid set exactly when some partition line declares it with a state not
indicating drained/inactive/down; (b) every produced device carries a
nonempty membership list drawn entirely from the valid set; (c) a node
line whose filtered membership list is empty contributes zero devices —
so nodes belonging only to drained partitions yield no devices. -/
theorem C5_partition_filtering (part_output node_output : String) :
    (∀ p, p ∈ validPartitions part_output ↔
      ∃ line ∈ pySplitChar '\n' part_output,
        partitionName line = some p ∧ isDrainedState (partitionState line) = false) ∧
    (∀ g ∈ parseNodes (validPartitions part_output) node_output,
      ∃ ps, g.partitions = some ps ∧ ps ≠ [] ∧
        ∀ q ∈ ps, q ∈ validPartitions part_output) ∧
    (∀ line ∈ pySplitChar '\n' node_output,
      nodePartitions (validPartitions part_output) line = [] →
      nodeDevices (validPartitions part_output) line = []) := by
  refine ⟨?_, ?_, ?_⟩
  · intro p
    unfold validPartitions
    by_cases hpo : part_output = ""
    · rw [if_pos hpo]
      simp only [List.not_mem_nil, false_iff]
      rintro ⟨line, hline, hname, _⟩
      rw [hpo] at hline
      have hl : line = "" := by
        have he : pySplitChar '\n' "" = [""] := rfl
        rw [he] at hline
        simpa using hline
      rw [hl, show partitionName "" = none from rfl] at hname
      cases hname
    · rw [if_neg hpo, List.mem_filterMap]
      constructor
      · rintro ⟨line, hl, he⟩
        refine ⟨line, hl, ?_⟩
        unfold partLineEntry at he
        cases hn : partitionName line with
        | none => rw [hn] at he; simp at he
        | some nm =>
          rw [hn] at he
          dsimp only at he
          by_cases hd : isDrainedState (partitionState line) = true
          · rw [if_pos hd] at he; simp at he
          · rw [if_neg hd] at he
            injection he with he
            exact ⟨by rw [he], by simpa using hd⟩
      · rintro ⟨line, hl, hname, hnd⟩
        refine ⟨line, hl, ?_⟩
        unfold partLineEntry
        rw [hname]
        dsimp only
        rw [if_neg (by simp [hnd])]
  · intro g hg
    unfold parseNodes at hg
    by_cases hno : node_output = ""
    · rw [if_pos hno] at hg
      exact absurd hg (List.not_mem_nil g)
    · rw [if_neg hno] at hg
      obtain ⟨line, _, hdev⟩ := List.mem_flatMap.mp hg
      unfold nodeDevices at hdev
      cases hn : reSearchCapture "NodeName=" nonWs line with
      | none => rw [hn] at hdev; exact absurd hdev (List.not_mem_nil g)
      | some nm =>
        rw [hn] at hdev
        dsimp only at hdev
        by_cases hemp : nodePartitions (validPartitions part_output) line = []
        · rw [if_pos hemp] at hdev
          exact absurd hdev (List.not_mem_nil g)
        · rw [if_neg hemp] at hdev
          by_cases hz : (if (gresParse line).1 = 0 then cfgTresCount line
              else (gresParse line).1) = 0
          · rw [if_pos hz] at hdev
            exact absurd hdev (List.not_mem_nil g)
          · rw [if_neg hz] at hdev
            obtain ⟨i, _, hgi⟩ := List.mem_map.mp hdev
            refine ⟨nodePartitions (validPartitions part_output) line, ?_, hemp, ?_⟩
            · rw [← hgi]
            · intro q hq
              unfold nodePartitions at hq
              cases hcap : reSearchCapture "Partitions=" nonBlank line with
              | none => rw [hcap] at hq; exact absurd hq (List.not_mem_nil q)
              | some raw =>
                rw [hcap] at hq
                dsimp only at hq
                have := (List.mem_filter.mp hq).2
                simpa [List.elem_iff] using this
  · intro line _ hempty
    unfold nodeDevices
    cases hn : reSearchCapture "NodeName=" nonWs line with
    | none => rfl
    | some nm =>
      dsimp only
      rw [if_pos hempty]

/-- Witness for `C5_partition_filtering` (conjunct b) at a concrete pair
of listings: the produced device's memberships are nonempty and valid
(the drained partition has been filtered away). -/
theorem C5_partition_filtering_witness :
    ∃ ps, (⟨"n1", some 0, 0, 0, 0, some "GPU", some ["good"]⟩ : Gpu).partitions = some ps ∧
      ps ≠ [] ∧ ∀ q ∈ ps, q ∈ validPartitions c5Part :=
  (C5_partition_filtering c5Part c5Node).2.1
    ⟨"n1", some 0, 0, 0, 0, some "GPU", some ["good"]⟩ (by decide)

/-! ## C6: GPU count resolution and binary utilization -/

/-- C6: for a kept node record (node name present, nonempty valid
membership list): the device count equals the `Gres`-derived count when
that is nonzero and the `CfgTRES` `gres/gpu` count exactly when the
`Gres`-derived count is absent or zero; the `i`-th device's utilization
is 100 exactly for `i` below the `AllocTRES` count and 0 otherwise; and
every produced utilization is 0 or 100. -/
theorem getD_map_range {α : Type} [Inhabited α] (f : ℕ → α) (n i : ℕ) (hi : i < n) :
    (((List.range n).map f).getD i default) = f i := by
  have h2 : i < ((List.range n).map f).length := by
    rw [List.length_map, List.length_range]
    exact hi
  rw [List.getD_eq_getElem _ _ h2, List.getElem_map, List.getElem_range]

theorem C6_gpu_counts (valid : List String) (line : String) (nm : String)
    (hn : reSearchCapture "NodeName=" nonWs line = some nm)
    (hp : nodePartitions valid line ≠ []) :
    ((gresParse line).1 ≠ 0 → (nodeDevices valid line).length = (gresParse line).1) ∧
    ((gresParse line).1 = 0 → (nodeDevices valid line).length = cfgTresCount line) ∧
    (∀ i, i < (nodeDevices valid line).length →
      ((nodeDevices valid line).getD i default).util =
        (if i < allocTresCount line then (100 : ℚ) else 0)) ∧
    (∀ g ∈ nodeDevices valid line, g.util = 0 ∨ g.util = 100) := by
  have hdev : nodeDevices valid line =
      (if (if (gresParse line).1 = 0 then cfgTresCount line else (gresParse line).1) = 0 then
        ([] : List Gpu)
      else (List.range (if (gresParse line).1 = 0 then cfgTresCount line
          else (gresParse line).1)).map
        (fun i => Gpu.mk nm (some i) 0 0 (if i < allocTresCount line then 100 else 0)
          (some (gresParse line).2) (some (nodePartitions valid line)))) := by
    unfold nodeDevices
    rw [hn]
    dsimp only
    rw [if_neg hp]
  have hlen : (nodeDevices valid line).length =
      (if (gresParse line).1 = 0 then cfgTresCount line else (gresParse line).1) := by
    rw [hdev]
    by_cases hz : (if (gresParse line).1 = 0 then cfgTresCount line
        else (gresParse line).1) = 0
    · rw [if_pos hz, hz]; rfl
    · rw [if_neg hz, List.length_map, List.length_range]
  refine ⟨?_, ?_, ?_, ?_⟩
  · intro hgz
    rw [hlen, if_neg hgz]
  · intro hgz
    rw [hlen, if_pos hgz]
  · intro i hi
    rw [hlen] at hi
    have hz : ¬ (if (gresParse line).1 = 0 then cfgTresCount line
        else (gresParse line).1) = 0 := by omega
    rw [hdev, if_neg hz, getD_map_range _ _ i hi]
  · intro g hg
    rw [hdev] at hg
    by_cases hz : (if (gresParse line).1 = 0 then cfgTresCount line
        else (gresParse line).1) = 0
    · rw [if_pos hz] at hg
      exact absurd hg (List.not_mem_nil g)
    · rw [if_neg hz] at hg
      obtain ⟨i, _, hgi⟩ := List.mem_map.mp hg
      rw [← hgi]
      by_cases ha : i < allocTresCount line
      · right; simp [ha]
      · left; simp [ha]

/-- Witness for `C6_gpu_counts` at a concrete node line exercising the
`CfgTRES` fallback and a partial allocation. -/
theorem C6_gpu_counts_witness :
    ((gresParse c6Line).1 = 0 → (nodeDevices ["good"] c6Line).length = cfgTresCount c6Line) ∧
    ((nodeDevices ["good"] c6Line).getD 0 default).util =
      (if 0 < allocTresCount c6Line then (100 : ℚ) else 0) := by
  have h := C6_gpu_counts ["good"] c6Line "n1" (by decide) (by decide)
  exact ⟨h.2.1, h.2.2.1 0 (by decide)⟩

/-! ## C10: device ordering -/

theorem sorted_contiguous (names : List String)
    (hs : List.Sorted (fun a b => strLe a b = true) names) :
    ∀ i j k : ℕ, i ≤ j → j ≤ k → k < names.length →
    names.getD i "" = names.getD k "" → names.getD j "" = names.getD i "" := by
  intro i j k hij hjk hk hik
  have hi : i < names.length := by omega
  have hj : j < names.length := by omega
  haveI : IsRefl String (fun a b => strLe a b = true) := ⟨strLe_refl⟩
  have h1 : strLe (names.get ⟨i, hi⟩) (names.get ⟨j, hj⟩) = true :=
    hs.rel_get_of_le (Fin.mk_le_mk.mpr hij)
  have h2 : strLe (names.get ⟨j, hj⟩) (names.get ⟨k, hk⟩) = true :=
    hs.rel_get_of_le (Fin.mk_le_mk.mpr hjk)
  rw [List.getD_eq_getElem names "" hi, List.getD_eq_getElem names "" hj]
  rw [List.getD_eq_getElem names "" hi, List.getD_eq_getElem names "" hk] at hik
  simp only [List.get_eq_getElem] at h1 h2
  rw [← hik] at h2
  exact strLe_antisymm h2 h1

/-- C10: the scheduler-mode result list is sorted in non-decreasing
(code-point) order of owning node name, and equal node names are
contiguous: whenever positions `i ≤ j ≤ k` carry the same name at `i`
and `k`, the name at `j` is that same name. -/
theorem C10_sorted_by_node (full_output : String) :
    List.Sorted (fun a b => strLe a b = true)
      ((slurmParse full_output).gpu_list.map (fun g => g.name)) ∧
    (∀ i j k : ℕ, i ≤ j → j ≤ k →
      k < ((slurmParse full_output).gpu_list.map (fun g => g.name)).length →
      ((slurmParse full_output).gpu_list.map (fun g => g.name)).getD i "" =
        ((slurmParse full_output).gpu_list.map (fun g => g.name)).getD k "" →
      ((slurmParse full_output).gpu_list.map (fun g => g.name)).getD j "" =
        ((slurmParse full_output).gpu_list.map (fun g => g.name)).getD i "") := by
  haveI : IsTotal Gpu (fun a b => strLe a.name b.name = true) :=
    ⟨fun a b => strLe_total a.name b.name⟩
  haveI : IsTrans Gpu (fun a b => strLe a.name b.name = true) :=
    ⟨fun _ _ _ h1 h2 => strLe_trans h1 h2⟩
  have hs : List.Sorted (fun a b => strLe a b = true)
      ((slurmParse full_output).gpu_list.map (fun g => g.name)) := by
    unfold slurmParse
    dsimp only
    exact List.pairwise_map.mpr
      (List.sorted_insertionSort (fun a b : Gpu => strLe a.name b.name = true) _)
  exact ⟨hs, sorted_contiguous _ hs⟩

/-- Witness for `C10_sorted_by_node`: in the three-GPU-node output the
names at positions 0 and 2 agree, so position 1 agrees too. -/
theorem C10_sorted_by_node_witness :
    ((slurmParse c10Raw).gpu_list.map (fun g => g.name)).getD 1 "" =
      ((slurmParse c10Raw).gpu_list.map (fun g => g.name)).getD 0 "" :=
  (C10_sorted_by_node c10Raw).2 0 1 2 (by decide) (by decide) (by decide) (by decide)

/-! ## C3: error string and device data are mutually exclusive -/

theorem data_head_append {s : String} {c : Char} {t : List Char} (h : s.data = c :: t)
    (r : String) : ∃ t2, (s ++ r).data = c :: t2 :=
  ⟨t ++ r.data, by rw [String.data_append, h]; rfl⟩

theorem splitOnCharL_ne_nil (sep : Char) (l : List Char) : splitOnCharL sep l ≠ [] := by
  induction l with
  | nil => simp [splitOnCharL]
  | cons c rest ih =>
    unfold splitOnCharL
    by_cases hc : c = sep
    · rw [if_pos hc]; simp
    · rw [if_neg hc]
      cases hs : splitOnCharL sep rest with
      | nil => simp
      | cons h t => simp

theorem parseDirectLinesAux_info_grows :
    ∀ (lines : List String) (gl : List Gpu) (info : String) (gl' : List Gpu) (info' : String),
    parseDirectLinesAux lines gl info = .ok (gl', info') → ∃ r, info' = info ++ r := by
  intro lines
  induction lines with
  | nil =>
    intro gl info gl' info' h
    unfold parseDirectLinesAux at h
    simp only [Except.ok.injEq, Prod.mk.injEq] at h
    exact ⟨"", by rw [← h.2, String.append_empty]⟩
  | cons line rest ih =>
    intro gl info gl' info' h
    unfold parseDirectLinesAux at h
    by_cases hlen : 4 ≤ (pySplitChar ',' line).length
    · rw [if_pos hlen] at h
      cases h1 : pyFloat (pyStrip ((pySplitChar ',' line).getD 1 "")) with
      | error e => rw [h1] at h; simp at h
      | ok mu =>
        cases h2 : pyFloat (pyStrip ((pySplitChar ',' line).getD 2 "")) with
        | error e => rw [h1, h2] at h; simp at h
        | ok mt =>
          cases h3 : pyFloat (pyStrip ((pySplitChar ',' line).getD 3 "")) with
          | error e => rw [h1, h2, h3] at h; simp at h
          | ok u =>
            rw [h1, h2, h3] at h
            dsimp only at h
            obtain ⟨r, hr⟩ := ih _ _ _ _ h
            exact ⟨gpuFragment (pyStrip ((pySplitChar ',' line).getD 0 "")) mu mt u ++ r,
              by rw [hr, String.append_assoc]⟩
    · rw [if_neg hlen] at h
      obtain ⟨r, hr⟩ := ih _ _ _ _ h
      refine ⟨"Invalid GPU data: " ++ line ++ "\n" ++ r, ?_⟩
      rw [hr]
      simp only [String.append_assoc]

theorem gpuFragment_head (name : String) (mu mt u : ℚ) :
    ∃ t, (gpuFragment name mu mt u).data = 'G' :: t := by
  unfold gpuFragment
  have h0 : ("GPU: " : String).data = 'G' :: "PU: ".data := rfl
  obtain ⟨t1, h1⟩ := data_head_append h0 name
  obtain ⟨t2, h2⟩ := data_head_append h1 "\nMemory: "
  obtain ⟨t3, h3⟩ := data_head_append h2 (formatF0 mu)
  obtain ⟨t4, h4⟩ := data_head_append h3 "/"
  obtain ⟨t5, h5⟩ := data_head_append h4 (formatF0 mt)
  obtain ⟨t6, h6⟩ := data_head_append h5 " MB\nUtilization: "
  obtain ⟨t7, h7⟩ := data_head_append h6 (formatF0 u)
  obtain ⟨t8, h8⟩ := data_head_append h7 "%\n"
  exact ⟨t8, h8⟩

theorem invalidFrag_head (info line : String) (hinfo : info = "") :
    ∃ t, (info ++ "Invalid GPU data: " ++ line ++ "\n").data = 'I' :: t := by
  subst hinfo
  have h0 : (("" : String) ++ "Invalid GPU data: ").data = 'I' :: "nvalid GPU data: ".data := rfl
  obtain ⟨t1, h1⟩ := data_head_append h0 line
  obtain ⟨t2, h2⟩ := data_head_append h1 "\n"
  exact ⟨t2, h2⟩

theorem parseDirectOutput_disj (out : String) (r : GpuResult)
    (h : parseDirectOutput out = .ok r) :
    r.gpu_list = [] ∨ isErrorString r.gpu_info = false := by
  unfold parseDirectOutput at h
  by_cases hne : out ≠ ""
  · rw [if_pos hne] at h
    obtain ⟨x, xs, hx⟩ : ∃ x xs, pySplitChar '\n' out = x :: xs := by
      unfold pySplitChar
      cases hsp : splitOnCharL '\n' out.data with
      | nil => exact absurd hsp (splitOnCharL_ne_nil _ _)
      | cons a as => exact ⟨⟨a⟩, as.map (fun l => ⟨l⟩), rfl⟩
    rw [hx] at h
    cases hp : parseDirectLinesAux (x :: xs) [] "" with
    | error e => rw [hp] at h; simp at h
    | ok pair =>
      obtain ⟨gl, info⟩ := pair
      rw [hp] at h
      dsimp only at h
      have hr : r = { gpu_list := gl, gpu_info := pyStrip info, partition_stats := none } := by
        injection h with h
        exact h.symm
      have hhead : ∃ c t, info.data = c :: t ∧ (c = 'G' ∨ c = 'I') := by
        unfold parseDirectLinesAux at hp
        by_cases hlen : 4 ≤ (pySplitChar ',' x).length
        · rw [if_pos hlen] at hp
          cases h1 : pyFloat (pyStrip ((pySplitChar ',' x).getD 1 "")) with
          | error e => rw [h1] at hp; simp at hp
          | ok mu =>
            cases h2 : pyFloat (pyStrip ((pySplitChar ',' x).getD 2 "")) with
            | error e => rw [h1, h2] at hp; simp at hp
            | ok mt =>
              cases h3 : pyFloat (pyStrip ((pySplitChar ',' x).getD 3 "")) with
              | error e => rw [h1, h2, h3] at hp; simp at hp
              | ok u =>
                rw [h1, h2, h3] at hp
                dsimp only at hp
                obtain ⟨rr, hrr⟩ := parseDirectLinesAux_info_grows xs _ _ _ _ hp
                obtain ⟨t0, ht0⟩ :=
                  gpuFragment_head (pyStrip ((pySplitChar ',' x).getD 0 "")) mu mt u
                refine ⟨'G', "".data ++ t0 ++ rr.data, ?_, .inl rfl⟩
                rw [hrr, String.data_append, String.data_append, ht0]
                rfl
        · rw [if_neg hlen] at hp
          obtain ⟨rr, hrr⟩ := parseDirectLinesAux_info_grows xs _ _ _ _ hp
          obtain ⟨t0, ht0⟩ := invalidFrag_head "" x rfl
          refine ⟨'I', t0 ++ rr.data, ?_, .inr rfl⟩
          rw [hrr, String.data_append, ht0]
          rfl
      obtain ⟨c, t, hct, hc⟩ := hhead
      have hcs : isPySpace c = false := by rcases hc with rfl | rfl <;> rfl
      obtain ⟨t2, ht2⟩ := pyStrip_head hct hcs
      have hcE : c ≠ 'E' := by rcases hc with rfl | rfl <;> decide
      right
      rw [hr]
      exact isErrorString_of_head ht2 hcE
  · rw [if_neg hne] at h
    left
    injection h with h
    rw [← h]

theorem pyJoin_cons_eq (sep a : String) (l : List String) :
    ∃ r, pyJoin sep (a :: l) = a ++ r := by
  cases l with
  | nil => exact ⟨"", (String.append_empty a).symm⟩
  | cons y rest => exact ⟨sep ++ pyJoin sep (y :: rest), String.append_assoc a sep _⟩

theorem pyJoin_head {sep x : String} {c : Char} {t : List Char} (h : x.data = c :: t)
    (l : List String) : ∃ t2, (pyJoin sep (x :: l)).data = c :: t2 := by
  obtain ⟨r, hr⟩ := pyJoin_cons_eq sep x l
  rw [hr]
  exact data_head_append h r

theorem slurmSummary_head (gl : List Gpu) (stats : PartStats) :
    ∃ t, (slurmSummary gl stats).data = 'T' :: t := by
  unfold slurmSummary
  have h0 : ("Total: " : String).data = 'T' :: "otal: ".data := rfl
  obtain ⟨t1, h1⟩ :=
    data_head_append h0 (toString (gl.filter (fun g => g.util == 0)).length)
  obtain ⟨t2, h2⟩ := data_head_append h1 "/"
  obtain ⟨t3, h3⟩ := data_head_append h2 (toString gl.length)
  obtain ⟨t4, h4⟩ := data_head_append h3 " Free"
  exact pyJoin_head h4 _

theorem slurmParse_not_error (full_output : String) :
    isErrorString (slurmParse full_output).gpu_info = false := by
  obtain ⟨t, ht⟩ := slurmSummary_head
    (if full_output = "" then []
     else
       let parts := pySplitStr slurmSep full_output
       parseNodes (validPartitions (pyStrip (parts.getD 0 ""))) (pyStrip (parts.getD 1 "")))
    (partitionStats
      (if full_output = "" then []
       else
         let parts := pySplitStr slurmSep full_output
         parseNodes (validPartitions (pyStrip (parts.getD 0 ""))) (pyStrip (parts.getD 1 ""))))
  exact isErrorString_of_head ht (by decide)

/-- C3: every per-host result the engine produces — direct mode,
scheduler mode, or any failure path — populates exactly one of the error
string and the device data: an `Error:`-prefixed info string comes with
an empty device list, and a nonempty device list comes with a
non-`Error:` info string. -/
theorem C3_result_exclusive (env : Env) (st : WorkerState) (server : Server)
    (r : GpuResult) (st' : WorkerState) (b : Bool)
    (heq : get_gpu_info env st server = .ok (r, st', b)) :
    (isErrorString r.gpu_info = true → r.gpu_list = []) ∧
    (r.gpu_list ≠ [] → isErrorString r.gpu_info = false) := by
  have hdisj : r.gpu_list = [] ∨ isErrorString r.gpu_info = false := by
    unfold get_gpu_info get_slurm_info at heq
    repeat' split at heq
    all_goals cases heq
    all_goals try (left; rfl)
    all_goals try (right; exact slurmParse_not_error _)
    all_goals exact parseDirectOutput_disj _ _ (by assumption)
  constructor
  · intro hE
    rcases hdisj with hd | hd
    · exact hd
    · rw [hd] at hE; cases hE
  · intro hne
    rcases hdisj with hd | hd
    · exact absurd hd hne
    · exact hd

/-- Witness for `C3_result_exclusive` at a concrete produced result. -/
theorem C3_result_exclusive_witness :
    (isErrorString c3Result.gpu_info = true → c3Result.gpu_list = []) ∧
    (c3Result.gpu_list ≠ [] → isErrorString c3Result.gpu_info = false) :=
  C3_result_exclusive envDirectA initState srvLocal c3Result initState false rfl
